import Mathlib

/-!
Verification of the `ibm-ia-rest` client library (src/index.js).

The library builds XML "Project" documents for the IBM Information Analyzer
REST API, discovers catalog assets through a callback-driven traversal with a
discovered/added completion gate, and submits analysis tasks.  This file gives
a shallow embedding of the relevant parts:

* `XNode` models the xmldom DOM tree built by the `Project`, `ColumnAnalysis`
  and `PublishResults` constructors.  `getElementsByTagName(t)[0]` together
  with `appendChild` is modelled by `appendToFirst` (first match in document
  pre-order, which is exactly document order for these trees).
* The traversal completion gate of `createOrUpdateAnalysisProject` is modelled
  as a small-step transition system on the two shared lists.
* The synchronous scheduling phase of the database tree (the nested loops over
  hosts, databases and schemas with ignore filtering) is modelled by
  `scheduleDbHosts`; leaf responses are modelled by `processBranchesSeq`.
* `makeRequest`, `getTaskStatus`, `_createOrUpdateIgnoreList` and the
  source-string sniffing of `runColumnAnalysisForSources` and
  `publishResultsForSources` are modelled directly.
-/

/-- A DOM element: tag name, attributes in insertion order, children in
document order.  Text nodes are encoded as elements with the reserved tag
`#text` (no real element of the library uses that tag). -/
inductive XNode where
  | elem (tag : String) (attrs : List (String × String)) (children : List XNode)
  deriving Repr

/-- The text node created by `doc.createTextNode`. -/
def textNode (s : String) : XNode := .elem "#text" [("#value", s)] []

mutual

/-- Number of elements with tag `t` in the tree (the length of
`getElementsByTagName(t)`). -/
def countTag (t : String) : XNode → Nat
  | .elem tag _ ch => (if tag = t then 1 else 0) + countTagL t ch

def countTagL (t : String) : List XNode → Nat
  | [] => 0
  | x :: xs => countTag t x + countTagL t xs

end

mutual

/-- Append `c` as last child of the first element (document pre-order) whose
tag is `t`; `none` when no such element exists.  This models
`getElementsByTagName(t)[0].appendChild(c)` on a mutable DOM. -/
def appendToFirst (t : String) (c : XNode) : XNode → Option XNode
  | .elem tag attrs ch =>
    if tag = t then some (.elem tag attrs (ch ++ [c]))
    else
      match appendToFirstL t c ch with
      | some ch2 => some (.elem tag attrs ch2)
      | none => none

def appendToFirstL (t : String) (c : XNode) : List XNode → Option (List XNode)
  | [] => none
  | x :: xs =>
    match appendToFirst t c x with
    | some x2 => some (x2 :: xs)
    | none =>
      match appendToFirstL t c xs with
      | some xs2 => some (x :: xs2)
      | none => none

end

mutual

/-- The first element with tag `t` in document pre-order
(`getElementsByTagName(t)[0]` or `.item(0)`). -/
def findFirstTag (t : String) : XNode → Option XNode
  | .elem tag attrs ch =>
    if tag = t then some (.elem tag attrs ch) else findFirstTagL t ch

def findFirstTagL (t : String) : List XNode → Option XNode
  | [] => none
  | x :: xs =>
    match findFirstTag t x with
    | some r => some r
    | none => findFirstTagL t xs

end

/-- `getAttribute(nm)`: empty string when the attribute is absent. -/
def attrValue (nm : String) : XNode → String
  | .elem _ attrs _ => ((attrs.find? (fun p => p.1 == nm)).map Prod.snd).getD ""

/-- `documentElement.appendChild c`. -/
def appendToRoot (doc c : XNode) : XNode :=
  match doc with
  | .elem tag attrs ch => .elem tag attrs (ch ++ [c])

theorem countTagL_append (t : String) (l1 l2 : List XNode) :
    countTagL t (l1 ++ l2) = countTagL t l1 + countTagL t l2 := by
  induction l1 with
  | nil => simp [countTagL]
  | cons x xs ih => simp [countTagL, ih]; omega

mutual

theorem countTag_appendToFirst (t τ : String) (c : XNode) (x x' : XNode)
    (h : appendToFirst t c x = some x') :
    countTag τ x' = countTag τ x + countTag τ c := by
  cases x with
  | elem tag attrs ch =>
    unfold appendToFirst at h
    by_cases htag : tag = t
    · subst htag
      simp at h
      subst h
      simp [countTag, countTagL_append, countTagL]
      omega
    · simp [htag] at h
      cases hch : appendToFirstL t c ch with
      | none => simp [hch] at h
      | some ch2 =>
        simp [hch] at h
        subst h
        simp [countTag]
        have := countTagL_appendToFirstL t τ c ch ch2 hch
        omega

theorem countTagL_appendToFirstL (t τ : String) (c : XNode) (xs xs' : List XNode)
    (h : appendToFirstL t c xs = some xs') :
    countTagL τ xs' = countTagL τ xs + countTag τ c := by
  cases xs with
  | nil => simp [appendToFirstL] at h
  | cons x rest =>
    unfold appendToFirstL at h
    cases hx : appendToFirst t c x with
    | some x2 =>
      simp [hx] at h
      subst h
      simp [countTagL]
      have := countTag_appendToFirst t τ c x x2 hx
      omega
    | none =>
      simp [hx] at h
      cases hrest : appendToFirstL t c rest with
      | none => simp [hrest] at h
      | some rest2 =>
        simp [hrest] at h
        subst h
        simp [countTagL]
        have := countTagL_appendToFirstL t τ c rest rest2 hrest
        omega

end

mutual

theorem countTag_of_appendToFirst_none (t : String) (c : XNode) (x : XNode)
    (h : appendToFirst t c x = none) : countTag t x = 0 := by
  cases x with
  | elem tag attrs ch =>
    unfold appendToFirst at h
    by_cases htag : tag = t
    · simp [htag] at h
    · simp [htag] at h
      cases hch : appendToFirstL t c ch with
      | some ch2 => rw [hch] at h; simp at h
      | none =>
        have := countTagL_of_appendToFirstL_none t c ch hch
        simp [countTag, htag, this]

theorem countTagL_of_appendToFirstL_none (t : String) (c : XNode) (xs : List XNode)
    (h : appendToFirstL t c xs = none) : countTagL t xs = 0 := by
  cases xs with
  | nil => simp [countTagL]
  | cons x rest =>
    unfold appendToFirstL at h
    cases hx : appendToFirst t c x with
    | some x2 => rw [hx] at h; simp at h
    | none =>
      rw [hx] at h
      simp at h
      cases hrest : appendToFirstL t c rest with
      | some rest2 => rw [hrest] at h; simp at h
      | none =>
        have h1 := countTag_of_appendToFirst_none t c x hx
        have h2 := countTagL_of_appendToFirstL_none t c rest hrest
        simp [countTagL, h1, h2]

end

theorem appendToFirst_isSome_of_countTag_pos (t : String) (c : XNode) (x : XNode)
    (h : countTag t x ≠ 0) : ∃ x', appendToFirst t c x = some x' := by
  cases hx : appendToFirst t c x with
  | none => exact absurd (countTag_of_appendToFirst_none t c x hx) h
  | some x' => exact ⟨x', rfl⟩

/-! ## The Project document builder (src/index.js, `Project`, `ColumnAnalysis`,
`PublishResults`) -/

/-- `new Project(name)`: root element `iaapi:Project` carrying the namespace
attribute and the `name` attribute. -/
def Project.new (name : String) : XNode :=
  .elem "iaapi:Project"
    [("xmlns:iaapi", "http://www.ibm.com/investigate/api/iaapi"), ("name", name)] []

/-- `Project.prototype.setDescription`: appends a `description` element with a
text child to the document element. -/
def Project.setDescription (doc : XNode) (desc : String) : XNode :=
  appendToRoot doc (.elem "description" [] [textNode desc])

def mkColumnElems (cols : List String) : List XNode :=
  cols.map (fun c => .elem "Column" [("name", c)] [])

/-- The `DataSource/Schema/Table/Column*` subtree that one `addTable` call
builds (a fresh `DataSource` element on every call). -/
def mkTableSubtree (datasource schema table : String) (aColumns : List String) : XNode :=
  .elem "DataSource" [("name", datasource)]
    [.elem "Schema" [("name", schema)]
      [.elem "Table" [("name", table)] (mkColumnElems aColumns)]]

/-- `Project.prototype.addTable`: locates the shared `DataSources` container
(created lazily on first use) and appends a fresh
`DataSource/Schema/Table/Column*` subtree to it. -/
def Project.addTable (doc : XNode) (datasource schema table : String)
    (aColumns : List String) : XNode :=
  if countTag "DataSources" doc = 0 then
    appendToRoot doc (.elem "DataSources" [] [mkTableSubtree datasource schema table aColumns])
  else
    (appendToFirst "DataSources" (mkTableSubtree datasource schema table aColumns) doc).getD doc

/-- The `DataSource/FileFolder/FileName/Column*` subtree built by one
`addFile` call. -/
def mkFileSubtree (datasource folder file : String) (aFields : List String) : XNode :=
  .elem "DataSource" [("name", datasource)]
    [.elem "FileFolder" [("name", folder)]
      [.elem "FileName" [("name", file)] (mkColumnElems aFields)]]

/-- `Project.prototype.addFile`. -/
def Project.addFile (doc : XNode) (datasource folder file : String)
    (aFields : List String) : XNode :=
  if countTag "DataSources" doc = 0 then
    appendToRoot doc (.elem "DataSources" [] [mkFileSubtree datasource folder file aFields])
  else
    (appendToFirst "DataSources" (mkFileSubtree datasource folder file aFields) doc).getD doc

/-- `_getValueOrDefault(val, def)`: the JS test `val === undefined` is modelled
by the `Option` being `none`. -/
def getValueOrDefault {α : Type} (val : Option α) (def_ : α) : α :=
  match val with
  | none => def_
  | some v => v

/-- JS stringification of the boolean attribute values passed to
`setAttribute`. -/
def jsBoolStr (b : Bool) : String := if b then "true" else "false"

/-- JS stringification of the integer attribute values passed to
`setAttribute`. -/
def jsIntStr (n : Int) : String := toString n

/-- The `RunColumnAnalysis` element created by the `ColumnAnalysis`
constructor, before it is inserted under `Tasks`.  `none` arguments model JS
`undefined` arguments. -/
def mkRunColumnAnalysisElem (analyzeColumnProperties : Option Bool)
    (captureResultsType : Option String) (minCaptureSize maxCaptureSize : Option Int)
    (analyzeDataClasses : Option Bool) : XNode :=
  .elem "RunColumnAnalysis"
    [("analyzeColumnProperties", jsBoolStr (getValueOrDefault analyzeColumnProperties true)),
     ("captureFDResultsType", getValueOrDefault captureResultsType "CAPTURE_ALL"),
     ("minFDCaptureSize", jsIntStr (getValueOrDefault minCaptureSize 5000)),
     ("maxFDCaptureSize", jsIntStr (getValueOrDefault maxCaptureSize 10000)),
     ("analyzeDataClasses", jsBoolStr (getValueOrDefault analyzeDataClasses false))] []

/-- The `ColumnAnalysis` constructor: creates the `RunColumnAnalysis` element
and appends it under the `Tasks` container, which is located by tag lookup and
created only when absent. -/
def ColumnAnalysis.init (doc : XNode) (analyzeColumnProperties : Option Bool)
    (captureResultsType : Option String) (minCaptureSize maxCaptureSize : Option Int)
    (analyzeDataClasses : Option Bool) : XNode :=
  let eRCA := mkRunColumnAnalysisElem analyzeColumnProperties captureResultsType
    minCaptureSize maxCaptureSize analyzeDataClasses
  if countTag "Tasks" doc = 0 then
    appendToRoot doc (.elem "Tasks" [] [eRCA])
  else
    (appendToFirst "Tasks" eRCA doc).getD doc

/-- The `PublishResults` constructor: creates an empty `PublishResults`
element and appends it under the lazily created `Tasks` container. -/
def PublishResults.init (doc : XNode) : XNode :=
  if countTag "Tasks" doc = 0 then
    appendToRoot doc (.elem "Tasks" [] [.elem "PublishResults" [] []])
  else
    (appendToFirst "Tasks" (.elem "PublishResults" [] []) doc).getD doc

/-- `ColumnAnalysis.prototype.addColumn` as called with four arguments
(the hostname handling in the source is commented out): appends a `Column`
element named `datasource.schema.table.column` to the first
`RunColumnAnalysis` element. -/
def ColumnAnalysis.addColumn (doc : XNode) (datasource schema table column : String) : XNode :=
  (appendToFirst "RunColumnAnalysis"
    (.elem "Column"
      [("name", datasource ++ "." ++ schema ++ "." ++ table ++ "." ++ column)] [])
    doc).getD doc

/-- `ColumnAnalysis.prototype.addFileField` as called with four arguments
(hostname `undefined`, so it is not prepended): appends a `Column` element
named `connection:path:filename:column` to the first `RunColumnAnalysis`
element. -/
def ColumnAnalysis.addFileField (doc : XNode) (connection path filename column : String) : XNode :=
  (appendToFirst "RunColumnAnalysis"
    (.elem "Column"
      [("name", connection ++ ":" ++ path ++ ":" ++ filename ++ ":" ++ column)] [])
    doc).getD doc

/-- A JS optional parameter, distinguishing `undefined`, `null` and a
string value; the distinction matters because `hostname !== undefined` is true
for `null`. -/
inductive JParam where
  | undef
  | null
  | str (s : String)
  deriving Repr, DecidableEq

/-- `PublishResults.prototype.addTable` (the hostname handling in the source
is commented out, so the fourth argument is ignored): appends a `Table`
element named `datasource.schema.table` to the first `PublishResults`
element. -/
def PublishResults.addTable (doc : XNode) (datasource schema table : String) : XNode :=
  (appendToFirst "PublishResults"
    (.elem "Table" [("name", datasource ++ "." ++ schema ++ "." ++ table)] [])
    doc).getD doc

/-- `PublishResults.prototype.addFile`: when `hostname !== undefined` the
source evaluates `hostname.toUpperCase()`, which raises a `TypeError` when the
caller passed `null` (as `publishResultsForSources` does). -/
def PublishResults.addFile (doc : XNode) (connection path filename : String)
    (hostname : JParam) : Except String XNode :=
  let name := connection ++ ":" ++ path ++ ":" ++ filename
  match hostname with
  | .undef =>
    .ok ((appendToFirst "PublishResults" (.elem "Table" [("name", name)] []) doc).getD doc)
  | .null => .error "TypeError: Cannot read property toUpperCase of null"
  | .str h =>
    .ok ((appendToFirst "PublishResults"
      (.elem "Table" [("name", h.toUpper ++ ":" ++ name)] []) doc).getD doc)

/-! ## makeRequest connection guard (src/index.js `makeRequest`, `setAuth`,
`setServer`) -/

/-- A JS value that is either `undefined` or a string, as stored in
`this.auth`, `this.host`, `this.port`. -/
inductive JSVal where
  | undef
  | str (s : String)
  deriving Repr, DecidableEq

/-- The JS loose-equality test `v == ""`: `undefined == ""` is false; a string
compares by value. -/
def jsLooseEqEmptyString : JSVal → Bool
  | .undef => false
  | .str s => s == ""

/-- The connection details referenced by `makeRequest`: the `auth`, `host` and
`port` properties of the module exports object. -/
structure ConnState where
  auth : JSVal
  host : JSVal
  port : JSVal
  deriving Repr, DecidableEq

/-- The initial state before any `setAuth`/`setServer` call: none of the three
properties exists on the exports object, so each reads as `undefined`. -/
def connInit : ConnState := ⟨.undef, .undef, .undef⟩

/-- The synchronous guard of `makeRequest`: it throws exactly when
`this.auth == "" || this.host == "" || this.port == ""` evaluates to true. -/
def makeRequestThrows (c : ConnState) : Bool :=
  jsLooseEqEmptyString c.auth || jsLooseEqEmptyString c.host || jsLooseEqEmptyString c.port

/-- `setAuth(user, password)`: throws on a missing or empty argument,
otherwise stores `user + ":" + password`. -/
def setAuth (c : ConnState) (user password : String) : Except String ConnState :=
  if user = "" ∨ password = "" then
    .error "Incomplete authentication information -- missing username or password (or both)."
  else
    .ok { c with auth := .str (user ++ ":" ++ password) }

/-- `setServer(host, port)`: stores both values without validation. -/
def setServer (c : ConnState) (host port : String) : ConnState :=
  { c with host := .str host, port := .str port }

/-! ## getTaskStatus (src/index.js `getTaskStatus`) -/

/-- One `TaskExecution` element of the `analysisStatus` response, by its four
attributes. -/
structure TaskExec where
  executionId : String
  executionTime : String
  progress : String
  status : String
  deriving Repr, DecidableEq

/-- The `stat` object assembled by `getTaskStatus`: starts empty and each
`TaskExecution` element overwrites all four fields, so the last element
wins. -/
structure TaskStatusRec where
  executionId : Option String
  executionTime : Option String
  progress : Option String
  status : Option String
  deriving Repr, DecidableEq

def statFromExecs (execs : List TaskExec) : TaskStatusRec :=
  execs.foldl
    (fun _ e => ⟨some e.executionId, some e.executionTime, some e.progress, some e.status⟩)
    ⟨none, none, none, none⟩

/-- `getTaskStatus` after the response arrives: a non-200 status throws
(`Except.error`); otherwise the callback receives the pair `(err, stat)`,
where `err` is the string "More than one result found" when more than one
`TaskExecution` element is present and `null` (`none`) otherwise. -/
def getTaskStatusOutcome (statusCode : Nat) (execs : List TaskExec) :
    Except String (Option String × TaskStatusRec) :=
  if statusCode ≠ 200 then
    .error ("Unsuccessful request " ++ toString statusCode)
  else
    .ok
      (if 1 < execs.length then some "More than one result found" else none,
        statFromExecs execs)

/-! ## The ignore-list label (src/index.js `_createOrUpdateIgnoreList`) -/

/-- A catalog item returned by the label search: its `_name` and, when
present, its `_id`. -/
structure LabelItem where
  name : String
  rid : Option String
  deriving Repr, DecidableEq

def ignoreLabelName : String := "Information Analyzer Ignore List"

/-- The IGC search for labels with the given name. -/
def searchLabelsByName (catalog : List LabelItem) (nm : String) : List LabelItem :=
  catalog.filter (fun it => it.name == nm)

/-- The loop over the search result: `labelRID` starts as the empty string and
every item that has an `_id` property overwrites it. -/
def lastFoundRid (items : List LabelItem) : String :=
  items.foldl (fun acc it => match it.rid with | some r => r | none => acc) ""

/-- `_createOrUpdateIgnoreList` over a catalog state: searches for the ignore
label by name, creates it only when no item with an `_id` was found, and hands
the resulting label RID to the callback.  `freshRid` is the RID the catalog
assigns on creation. -/
def createOrUpdateIgnoreList (catalog : List LabelItem) (freshRid : String) :
    List LabelItem × String :=
  let labelRID := lastFoundRid (searchLabelsByName catalog ignoreLabelName)
  if labelRID = "" then
    (catalog ++ [⟨ignoreLabelName, some freshRid⟩], freshRid)
  else
    (catalog, labelRID)

/-! ## The traversal completion gate (src/index.js
`createOrUpdateAnalysisProject`)

The function keeps two shared lists, `schemasDiscovered` and `schemasAdded`.
For every surviving (non-ignored) schema branch the loop pushes the branch
identity onto `schemasDiscovered` and then issues the asynchronous
table-and-column request; the corresponding callback pushes one entry onto
`schemasAdded` and fires the completion action when the two lengths are equal.
For every surviving file branch the identity is pushed onto
`schemasDiscovered` before the field-name request; its callback pushes onto
`schemasAdded` and checks the gate only when the response carried an `id`
(otherwise it returns without touching either list).

`TravStep` is the induced transition system: `schedule` is the synchronous
push-and-request of either tree, `completeAdd` is a callback that pushes onto
`added` and checks the gate, `completeSkip` is a file callback whose response
carried no `id`.  A callback can only run for a request that was scheduled
earlier, so both complete steps require a pending branch.  `fired` counts how
often the completion action (serialize the Project document and issue the
create-or-update request) has run. -/

structure TravState where
  discovered : List String
  added : List String
  pending : Nat
  fired : Nat
  deriving Repr, DecidableEq

inductive TravStep : TravState → TravState → Prop where
  | schedule (s : TravState) (ident : String) :
      TravStep s ⟨s.discovered ++ [ident], s.added, s.pending + 1, s.fired⟩
  | completeAdd (d a : List String) (p f : Nat) (entry : String) :
      TravStep ⟨d, a, p + 1, f⟩
        ⟨d, a ++ [entry], p, if (a ++ [entry]).length = d.length then f + 1 else f⟩
  | completeSkip (d a : List String) (p f : Nat) :
      TravStep ⟨d, a, p + 1, f⟩ ⟨d, a, p, f⟩

inductive TravReachable : TravState → Prop where
  | init : TravReachable ⟨[], [], 0, 0⟩
  | step {s s' : TravState} : TravReachable s → TravStep s s' → TravReachable s'

theorem trav_invariant {s : TravState} (h : TravReachable s) :
    s.added.length + s.pending ≤ s.discovered.length := by
  induction h with
  | init => simp
  | step _ hstep ih =>
    cases hstep with
    | schedule s ident => simp at ih ⊢; omega
    | completeAdd d a p f entry => simp at ih ⊢; omega
    | completeSkip d a p f => simp at ih ⊢; omega

/-! ## The database-tree scheduling phase (src/index.js
`createOrUpdateAnalysisProject`, hosts → databases → schemas loops) -/

/-- The type-partitioned identity sets returned by `getAllItemsToIgnore`;
field names follow the JS object keys. -/
structure IgnoreSets where
  host : List String
  database : List String
  database_schema : List String
  database_table : List String
  data_file_folder : List String
  data_file : List String
  deriving Repr

/-- One item of the `_getAllDatabasesAndSchemasForHost` response: `_name`,
`host.name` and `database_schemas.name`. -/
structure DbItem where
  name : String
  hostName : String
  schemas : List String
  deriving Repr

/-- A surviving schema branch for which a table request is issued. -/
structure SchemaBranch where
  hostName : String
  dbName : String
  schemaName : String
  deriving Repr, DecidableEq

def schemaIdentity (h db sch : String) : String := h ++ "::" ++ db ++ "::" ++ sch

def branchIdentity (b : SchemaBranch) : String :=
  schemaIdentity b.hostName b.dbName b.schemaName

/-- The `console.warn` line emitted for an ignore-listed object. -/
def warnIgnore (ident : String) : String := "  ignoring, based on label: " ++ ident

/-- What the synchronous part of the traversal produces: the
`schemasDiscovered` pushes, the warnings, and the schema branches for which a
table request was scheduled (in scheduling order). -/
structure SchedResult where
  discovered : List String
  warnings : List String
  branches : List SchemaBranch
  deriving Repr

def scat (r1 r2 : SchedResult) : SchedResult :=
  ⟨r1.discovered ++ r2.discovered, r1.warnings ++ r2.warnings, r1.branches ++ r2.branches⟩

/-- The inner schema loop: an ignore-listed schema only logs a warning; a
surviving schema pushes its identity onto `schemasDiscovered` and schedules
the table request. -/
def scheduleSchemasOfDb (ig : IgnoreSets) (h db : String) : List String → SchedResult
  | [] => ⟨[], [], []⟩
  | sch :: rest =>
    let r := scheduleSchemasOfDb ig h db rest
    if ig.database_schema.contains (schemaIdentity h db sch) then
      ⟨r.discovered, warnIgnore (schemaIdentity h db sch) :: r.warnings, r.branches⟩
    else
      ⟨schemaIdentity h db sch :: r.discovered, r.warnings, ⟨h, db, sch⟩ :: r.branches⟩

/-- The database loop over one `_getAllDatabasesAndSchemasForHost` response:
an ignore-listed database only logs a warning. -/
def scheduleDbItems (ig : IgnoreSets) : List DbItem → SchedResult
  | [] => ⟨[], [], []⟩
  | item :: rest =>
    let r := scheduleDbItems ig rest
    if ig.database.contains (item.hostName ++ "::" ++ item.name) then
      ⟨r.discovered, warnIgnore (item.hostName ++ "::" ++ item.name) :: r.warnings, r.branches⟩
    else
      scat (scheduleSchemasOfDb ig item.hostName item.name item.schemas) r

/-- The outer host loop of the database tree: an ignore-listed host only logs
a warning; `dbsForHost` is the response of `_getAllDatabasesAndSchemasForHost`
for each host. -/
def scheduleDbHosts (ig : IgnoreSets) (dbsForHost : String → List DbItem) :
    List String → SchedResult
  | [] => ⟨[], [], []⟩
  | h :: rest =>
    let r := scheduleDbHosts ig dbsForHost rest
    if ig.host.contains h then
      ⟨r.discovered, warnIgnore h :: r.warnings, r.branches⟩
    else
      scat (scheduleDbItems ig (dbsForHost h)) r

/-! ## Sequential leaf processing and the create/update submission
(src/index.js `createOrUpdateAnalysisProject` table callbacks and
`_createOrUpdateProjectRequest`) -/

/-- One item of the `_getAllTablesAndColumnsForSchema` response; the table
callback reads the schema, database and host names from the item itself. -/
structure TableItem where
  name : String
  columns : List String
  schemaName : String
  dbName : String
  hostName : String
  deriving Repr

def tableIdentity (t : TableItem) : String :=
  t.hostName ++ "::" ++ t.dbName ++ "::" ++ t.schemaName ++ "::" ++ t.name

/-- The loop of one table callback: ignore-listed tables are skipped,
surviving tables are appended to the Project document via `addTable`. -/
def addTablesFromResponse (ig : IgnoreSets) : XNode → List TableItem → XNode
  | doc, [] => doc
  | doc, t :: rest =>
    if ig.database_table.contains (tableIdentity t) then
      addTablesFromResponse ig doc rest
    else
      addTablesFromResponse ig (Project.addTable doc t.dbName t.schemaName t.name t.columns) rest

/-- `_createOrUpdateProjectRequest` endpoint selection. -/
def endpointFor (bCreate : Bool) : String :=
  if bCreate then "/ibm/iis/ia/api/create" else "/ibm/iis/ia/api/update"

/-- The table callbacks of the scheduled branches, processed in scheduling
order (the interleaving in which every schema request was scheduled before the
first response arrives): each callback pushes one `added` entry, appends its
surviving tables to the shared document, and fires the create-or-update
submission when the `added` count has reached the `discovered` count.  Returns
every `(endpoint, document)` submission the run issues. -/
def processBranchesSeq (ig : IgnoreSets) (tbls : String → String → String → List TableItem)
    (endpoint : String) (discCount : Nat) :
    XNode → Nat → List SchemaBranch → List (String × XNode)
  | _, _, [] => []
  | doc, addedCount, b :: rest =>
    let doc2 := addTablesFromResponse ig doc (tbls b.hostName b.dbName b.schemaName)
    let added2 := addedCount + 1
    (if discCount = added2 then [(endpoint, doc2)] else []) ++
      processBranchesSeq ig tbls endpoint discCount doc2 added2 rest

/-- The discovery data of one run of `createOrUpdateAnalysisProject` in which
the file-host query returns no hosts, so only the database tree contributes
branches. -/
structure DbRunConfig where
  projectList : List String
  ignore : IgnoreSets
  dbHosts : List String
  dbsForHost : String → List DbItem
  tblsForSchema : String → String → String → List TableItem

/-- `createOrUpdateAnalysisProject(name, description, ...)` for a database-only
run with leaf responses processed in scheduling order: decides create versus
update by the existing project list, builds the Project document with its
description, schedules the surviving schema branches, and processes their
table responses against the completion gate. -/
def createOrUpdateDbOnlySeq (name desc : String) (cfg : DbRunConfig) :
    List (String × XNode) :=
  let bCreate := !(cfg.projectList.contains name)
  let proj0 := Project.setDescription (Project.new name) desc
  let r := scheduleDbHosts cfg.ignore cfg.dbsForHost cfg.dbHosts
  processBranchesSeq cfg.ignore cfg.tblsForSchema (endpointFor bCreate)
    r.discovered.length proj0 0 r.branches

def emptyIgnore : IgnoreSets := ⟨[], [], [], [], [], []⟩

/-- The discovery data of the C2 scenario: the project list does not contain
"Automated Profiling"; one host HOST1 with one database DB1 holding one schema
SCH1 with tables T1 (columns A, B) and T2 (column C); empty ignore list. -/
def scnConfig : DbRunConfig where
  projectList := ["Existing Project"]
  ignore := emptyIgnore
  dbHosts := ["HOST1"]
  dbsForHost := fun h => if h = "HOST1" then [⟨"DB1", "HOST1", ["SCH1"]⟩] else []
  tblsForSchema := fun h db sch =>
    if h = "HOST1" ∧ db = "DB1" ∧ sch = "SCH1" then
      [⟨"T1", ["A", "B"], "SCH1", "DB1", "HOST1"⟩,
       ⟨"T2", ["C"], "SCH1", "DB1", "HOST1"⟩]
    else []

def scnSubmitted : List (String × XNode) :=
  createOrUpdateDbOnlySeq "Automated Profiling" "Automated profiling project" scnConfig

mutual

/-- Whether some `DataSource` element of the tree contains two or more
`Table` elements. -/
def someDataSourceHoldsTwoTables : XNode → Bool
  | .elem tag _ ch =>
    (tag == "DataSource" && decide (2 ≤ countTagL "Table" ch)) ||
      someDataSourceHoldsTwoTablesL ch

def someDataSourceHoldsTwoTablesL : List XNode → Bool
  | [] => false
  | x :: xs => someDataSourceHoldsTwoTables x || someDataSourceHoldsTwoTablesL xs

end

/-- The document the scenario run submits: the two tables arrive as two
sibling `DataSource` elements under the single `DataSources` container,
because `addTable` creates a fresh `DataSource/Schema` chain on every call. -/
def scnExpectedDoc : XNode :=
  .elem "iaapi:Project"
    [("xmlns:iaapi", "http://www.ibm.com/investigate/api/iaapi"),
     ("name", "Automated Profiling")]
    [.elem "description" [] [textNode "Automated profiling project"],
     .elem "DataSources" []
       [.elem "DataSource" [("name", "DB1")]
          [.elem "Schema" [("name", "SCH1")]
             [.elem "Table" [("name", "T1")]
                [.elem "Column" [("name", "A")] [], .elem "Column" [("name", "B")] []]]],
        .elem "DataSource" [("name", "DB1")]
          [.elem "Schema" [("name", "SCH1")]
             [.elem "Table" [("name", "T2")]
                [.elem "Column" [("name", "C")] []]]]]]

/-! ## Operation sequences on one Project document (for the Tasks-container
invariant) -/

/-- One operation on a Project document: the mutating prototype methods and
the two task constructors. -/
inductive ProjOp where
  | setDesc (d : String)
  | addTable (ds sch tbl : String) (cols : List String)
  | addFile (ds folder file : String) (fields : List String)
  | columnAnalysis (acp : Option Bool) (crt : Option String)
      (minC maxC : Option Int) (adc : Option Bool)
  | publishResults
  deriving Repr

def applyOp (doc : XNode) : ProjOp → XNode
  | .setDesc d => Project.setDescription doc d
  | .addTable ds sch tbl cols => Project.addTable doc ds sch tbl cols
  | .addFile ds folder file fields => Project.addFile doc ds folder file fields
  | .columnAnalysis acp crt minC maxC adc => ColumnAnalysis.init doc acp crt minC maxC adc
  | .publishResults => PublishResults.init doc

def applyOps (doc : XNode) : List ProjOp → XNode
  | [] => doc
  | op :: rest => applyOps (applyOp doc op) rest

/-- Number of `ColumnAnalysis` constructions in a sequence. -/
def countCAOps : List ProjOp → Nat
  | [] => 0
  | .columnAnalysis _ _ _ _ _ :: rest => countCAOps rest + 1
  | _ :: rest => countCAOps rest

/-- Number of `PublishResults` constructions in a sequence. -/
def countPROps : List ProjOp → Nat
  | [] => 0
  | .publishResults :: rest => countPROps rest + 1
  | _ :: rest => countPROps rest

/-! ## Source-string sniffing (src/index.js `runColumnAnalysisForSources`,
`publishResultsForSources`) -/

/-- The JS test `s.indexOf(c) > -1` for a one-character needle. -/
def jsHasChar (s : String) (c : Char) : Bool := s.data.contains c

def splitCharAux (c : Char) : List Char → List Char → List String
  | [], acc => [String.mk acc.reverse]
  | x :: xs, acc =>
    if x = c then String.mk acc.reverse :: splitCharAux c xs []
    else splitCharAux c xs (x :: acc)

/-- JS `s.split(c)` for a one-character separator. -/
def jsSplitChar (s : String) (c : Char) : List String := splitCharAux c s.data []

/-- `aTokens[i]` after `split(c)`: a missing index reads as `undefined`,
which JS string concatenation renders as the string "undefined". -/
def jsSplitTok (s : String) (c : Char) (i : Nat) : String :=
  ((jsSplitChar s c).get? i).getD "undefined"

/-- The loop body of `runColumnAnalysisForSources`: a source containing a
colon is split on colons and added as a file field; otherwise a source
containing a dot is split on dots and added as a column; otherwise the source
is skipped. -/
def caStep (doc : XNode) (s : String) : XNode :=
  if jsHasChar s ':' then
    ColumnAnalysis.addFileField doc (jsSplitTok s ':' 0) (jsSplitTok s ':' 1)
      (jsSplitTok s ':' 2) "*"
  else if jsHasChar s '.' then
    ColumnAnalysis.addColumn doc (jsSplitTok s '.' 0) (jsSplitTok s '.' 1)
      (jsSplitTok s '.' 2) "*"
  else doc

def caBuildTargets (doc : XNode) : List String → XNode
  | [] => doc
  | s :: rest => caBuildTargets (caStep doc s) rest

/-- The document `runColumnAnalysisForSources(projectName, aSources, cb)`
serializes and submits: a fresh project with a
`ColumnAnalysis(proj, true, "CAPTURE_ALL", 5000, 10000, true)` task and one
target per recognised source. -/
def runColumnAnalysisForSourcesDoc (projectName : String) (aSources : List String) : XNode :=
  caBuildTargets
    (ColumnAnalysis.init (Project.new projectName)
      (some true) (some "CAPTURE_ALL") (some 5000) (some 10000) (some true))
    aSources

/-- The names of the `Column` target elements under the first
`RunColumnAnalysis` element. -/
def rcaColumnNames (doc : XNode) : List String :=
  match findFirstTag "RunColumnAnalysis" doc with
  | some (.elem _ _ ch) =>
    (ch.filter (fun c => match c with | .elem tag _ _ => tag == "Column")).map (attrValue "name")
  | none => []

/-- The loop body of `publishResultsForSources`: colon sources call
`pr.addFile(..., null)` (which raises a TypeError on `null.toUpperCase()`),
dot sources call `pr.addTable(..., null)` (whose hostname handling is
commented out), all other sources are skipped. -/
def prStep (doc : XNode) (s : String) : Except String XNode :=
  if jsHasChar s ':' then
    PublishResults.addFile doc (jsSplitTok s ':' 0) (jsSplitTok s ':' 1)
      (jsSplitTok s ':' 2) JParam.null
  else if jsHasChar s '.' then
    .ok (PublishResults.addTable doc (jsSplitTok s '.' 0) (jsSplitTok s '.' 1)
      (jsSplitTok s '.' 2))
  else .ok doc

def prBuildTargets (doc : XNode) : List String → Except String XNode
  | [] => .ok doc
  | s :: rest =>
    match prStep doc s with
    | .ok d => prBuildTargets d rest
    | .error e => .error e

/-- The document `publishResultsForSources(projectName, aSources, cb)`
serializes and submits (or the TypeError the loop raises). -/
def publishResultsForSourcesDoc (projectName : String) (aSources : List String) :
    Except String XNode :=
  prBuildTargets (PublishResults.init (Project.new projectName)) aSources

/-! ## Counting lemmas for the document builder -/

theorem countTag_appendToRoot (τ : String) (doc c : XNode) :
    countTag τ (appendToRoot doc c) = countTag τ doc + countTag τ c := by
  cases doc with
  | elem tag attrs ch =>
    simp [appendToRoot, countTag, countTagL_append, countTagL]
    omega

theorem countTagL_mkColumnElems (τ : String) (hτ : τ ≠ "Column") (cols : List String) :
    countTagL τ (mkColumnElems cols) = 0 := by
  induction cols with
  | nil => simp [mkColumnElems, countTagL]
  | cons c rest ih =>
    simp [mkColumnElems, countTagL, countTag] at ih ⊢
    exact ⟨Ne.symm hτ, ih⟩

theorem countTag_mkTableSubtree (τ : String) (h1 : τ ≠ "DataSource") (h2 : τ ≠ "Schema")
    (h3 : τ ≠ "Table") (h4 : τ ≠ "Column") (ds sch tbl : String) (cols : List String) :
    countTag τ (mkTableSubtree ds sch tbl cols) = 0 := by
  simp [mkTableSubtree, countTag, countTagL, Ne.symm h1, Ne.symm h2, Ne.symm h3,
    countTagL_mkColumnElems τ h4]

theorem countTag_mkFileSubtree (τ : String) (h1 : τ ≠ "DataSource") (h2 : τ ≠ "FileFolder")
    (h3 : τ ≠ "FileName") (h4 : τ ≠ "Column") (ds folder file : String) (fields : List String) :
    countTag τ (mkFileSubtree ds folder file fields) = 0 := by
  simp [mkFileSubtree, countTag, countTagL, Ne.symm h1, Ne.symm h2, Ne.symm h3,
    countTagL_mkColumnElems τ h4]

theorem countTag_setDescription (τ : String) (h1 : τ ≠ "description") (h2 : τ ≠ "#text")
    (doc : XNode) (d : String) :
    countTag τ (Project.setDescription doc d) = countTag τ doc := by
  simp [Project.setDescription, countTag_appendToRoot, countTag, countTagL, textNode,
    Ne.symm h1, Ne.symm h2]

theorem countTag_addTable (τ : String) (h0 : τ ≠ "DataSources") (h1 : τ ≠ "DataSource")
    (h2 : τ ≠ "Schema") (h3 : τ ≠ "Table") (h4 : τ ≠ "Column")
    (doc : XNode) (ds sch tbl : String) (cols : List String) :
    countTag τ (Project.addTable doc ds sch tbl cols) = countTag τ doc := by
  unfold Project.addTable
  by_cases hds : countTag "DataSources" doc = 0
  · simp [hds, countTag_appendToRoot, countTag, countTagL, mkTableSubtree, Ne.symm h0,
      Ne.symm h1, Ne.symm h2, Ne.symm h3, countTagL_mkColumnElems τ h4]
  · simp [hds]
    obtain ⟨x', hx⟩ := appendToFirst_isSome_of_countTag_pos "DataSources"
      (mkTableSubtree ds sch tbl cols) doc hds
    rw [hx]
    simp [countTag_appendToFirst _ τ _ _ _ hx, countTag_mkTableSubtree τ h1 h2 h3 h4]

theorem countTag_addFile (τ : String) (h0 : τ ≠ "DataSources") (h1 : τ ≠ "DataSource")
    (h2 : τ ≠ "FileFolder") (h3 : τ ≠ "FileName") (h4 : τ ≠ "Column")
    (doc : XNode) (ds folder file : String) (fields : List String) :
    countTag τ (Project.addFile doc ds folder file fields) = countTag τ doc := by
  unfold Project.addFile
  by_cases hds : countTag "DataSources" doc = 0
  · simp [hds, countTag_appendToRoot, countTag, countTagL, mkFileSubtree, Ne.symm h0,
      Ne.symm h1, Ne.symm h2, Ne.symm h3, countTagL_mkColumnElems τ h4]
  · simp [hds]
    obtain ⟨x', hx⟩ := appendToFirst_isSome_of_countTag_pos "DataSources"
      (mkFileSubtree ds folder file fields) doc hds
    rw [hx]
    simp [countTag_appendToFirst _ τ _ _ _ hx, countTag_mkFileSubtree τ h1 h2 h3 h4]

theorem countTag_mkRCAElem (τ : String) (acp : Option Bool) (crt : Option String)
    (minC maxC : Option Int) (adc : Option Bool) :
    countTag τ (mkRunColumnAnalysisElem acp crt minC maxC adc) =
      if "RunColumnAnalysis" = τ then 1 else 0 := by
  simp [mkRunColumnAnalysisElem, countTag, countTagL]

theorem countTag_caInit_Tasks (doc : XNode) (acp : Option Bool) (crt : Option String)
    (minC maxC : Option Int) (adc : Option Bool) :
    countTag "Tasks" (ColumnAnalysis.init doc acp crt minC maxC adc) =
      if countTag "Tasks" doc = 0 then 1 else countTag "Tasks" doc := by
  unfold ColumnAnalysis.init
  by_cases h : countTag "Tasks" doc = 0
  · simp [h, countTag_appendToRoot, countTag, countTagL, mkRunColumnAnalysisElem]
  · simp [h]
    obtain ⟨x', hx⟩ := appendToFirst_isSome_of_countTag_pos "Tasks"
      (mkRunColumnAnalysisElem acp crt minC maxC adc) doc h
    rw [hx]
    simp [countTag_appendToFirst _ "Tasks" _ _ _ hx, countTag_mkRCAElem]

theorem countTag_caInit_RCA (doc : XNode) (acp : Option Bool) (crt : Option String)
    (minC maxC : Option Int) (adc : Option Bool) :
    countTag "RunColumnAnalysis" (ColumnAnalysis.init doc acp crt minC maxC adc) =
      countTag "RunColumnAnalysis" doc + 1 := by
  unfold ColumnAnalysis.init
  by_cases h : countTag "Tasks" doc = 0
  · simp [h, countTag_appendToRoot, countTag, countTagL, mkRunColumnAnalysisElem]
  · simp [h]
    obtain ⟨x', hx⟩ := appendToFirst_isSome_of_countTag_pos "Tasks"
      (mkRunColumnAnalysisElem acp crt minC maxC adc) doc h
    rw [hx]
    simp [countTag_appendToFirst _ "RunColumnAnalysis" _ _ _ hx, countTag_mkRCAElem]

theorem countTag_caInit_PR (doc : XNode) (acp : Option Bool) (crt : Option String)
    (minC maxC : Option Int) (adc : Option Bool) :
    countTag "PublishResults" (ColumnAnalysis.init doc acp crt minC maxC adc) =
      countTag "PublishResults" doc := by
  unfold ColumnAnalysis.init
  by_cases h : countTag "Tasks" doc = 0
  · simp [h, countTag_appendToRoot, countTag, countTagL, mkRunColumnAnalysisElem]
  · simp [h]
    obtain ⟨x', hx⟩ := appendToFirst_isSome_of_countTag_pos "Tasks"
      (mkRunColumnAnalysisElem acp crt minC maxC adc) doc h
    rw [hx]
    simp [countTag_appendToFirst _ "PublishResults" _ _ _ hx, countTag_mkRCAElem]

theorem countTag_prInit_Tasks (doc : XNode) :
    countTag "Tasks" (PublishResults.init doc) =
      if countTag "Tasks" doc = 0 then 1 else countTag "Tasks" doc := by
  unfold PublishResults.init
  by_cases h : countTag "Tasks" doc = 0
  · simp [h, countTag_appendToRoot, countTag, countTagL]
  · simp [h]
    obtain ⟨x', hx⟩ := appendToFirst_isSome_of_countTag_pos "Tasks"
      (.elem "PublishResults" [] []) doc h
    rw [hx]
    simp [countTag_appendToFirst _ "Tasks" _ _ _ hx, countTag, countTagL]

theorem countTag_prInit_RCA (doc : XNode) :
    countTag "RunColumnAnalysis" (PublishResults.init doc) =
      countTag "RunColumnAnalysis" doc := by
  unfold PublishResults.init
  by_cases h : countTag "Tasks" doc = 0
  · simp [h, countTag_appendToRoot, countTag, countTagL]
  · simp [h]
    obtain ⟨x', hx⟩ := appendToFirst_isSome_of_countTag_pos "Tasks"
      (.elem "PublishResults" [] []) doc h
    rw [hx]
    simp [countTag_appendToFirst _ "RunColumnAnalysis" _ _ _ hx, countTag, countTagL]

theorem countTag_prInit_PR (doc : XNode) :
    countTag "PublishResults" (PublishResults.init doc) =
      countTag "PublishResults" doc + 1 := by
  unfold PublishResults.init
  by_cases h : countTag "Tasks" doc = 0
  · simp [h, countTag_appendToRoot, countTag, countTagL]
  · simp [h]
    obtain ⟨x', hx⟩ := appendToFirst_isSome_of_countTag_pos "Tasks"
      (.elem "PublishResults" [] []) doc h
    rw [hx]
    simp [countTag_appendToFirst _ "PublishResults" _ _ _ hx, countTag, countTagL]

theorem applyOps_counts (ops : List ProjOp) : ∀ doc : XNode,
    countTag "Tasks" doc ≤ 1 →
    countTag "Tasks" (applyOps doc ops) ≤ 1 ∧
    countTag "RunColumnAnalysis" (applyOps doc ops) =
      countTag "RunColumnAnalysis" doc + countCAOps ops ∧
    countTag "PublishResults" (applyOps doc ops) =
      countTag "PublishResults" doc + countPROps ops := by
  induction ops with
  | nil => intro doc hdoc; simp [applyOps, countCAOps, countPROps, hdoc]
  | cons op rest ih =>
    intro doc hdoc
    have hstep :
        countTag "Tasks" (applyOp doc op) ≤ 1 ∧
        countTag "RunColumnAnalysis" (applyOp doc op) =
          countTag "RunColumnAnalysis" doc +
            (match op with | .columnAnalysis _ _ _ _ _ => 1 | _ => 0) ∧
        countTag "PublishResults" (applyOp doc op) =
          countTag "PublishResults" doc +
            (match op with | .publishResults => 1 | _ => 0) := by
      cases op with
      | setDesc d =>
        have hT := countTag_setDescription "Tasks" (by decide) (by decide) doc d
        have hR := countTag_setDescription "RunColumnAnalysis" (by decide) (by decide) doc d
        have hP := countTag_setDescription "PublishResults" (by decide) (by decide) doc d
        simp [applyOp, hT, hR, hP, hdoc]
      | addTable ds sch tbl cols =>
        have hT := countTag_addTable "Tasks" (by decide) (by decide) (by decide) (by decide)
          (by decide) doc ds sch tbl cols
        have hR := countTag_addTable "RunColumnAnalysis" (by decide) (by decide) (by decide)
          (by decide) (by decide) doc ds sch tbl cols
        have hP := countTag_addTable "PublishResults" (by decide) (by decide) (by decide)
          (by decide) (by decide) doc ds sch tbl cols
        simp [applyOp, hT, hR, hP, hdoc]
      | addFile ds folder file fields =>
        have hT := countTag_addFile "Tasks" (by decide) (by decide) (by decide) (by decide)
          (by decide) doc ds folder file fields
        have hR := countTag_addFile "RunColumnAnalysis" (by decide) (by decide) (by decide)
          (by decide) (by decide) doc ds folder file fields
        have hP := countTag_addFile "PublishResults" (by decide) (by decide) (by decide)
          (by decide) (by decide) doc ds folder file fields
        simp [applyOp, hT, hR, hP, hdoc]
      | columnAnalysis acp crt minC maxC adc =>
        refine ⟨?_, ?_, ?_⟩
        · rw [applyOp, countTag_caInit_Tasks]
          split <;> omega
        · rw [applyOp, countTag_caInit_RCA]
        · rw [applyOp, countTag_caInit_PR]; simp
      | publishResults =>
        refine ⟨?_, ?_, ?_⟩
        · rw [applyOp, countTag_prInit_Tasks]
          split <;> omega
        · rw [applyOp, countTag_prInit_RCA]; simp
        · rw [applyOp, countTag_prInit_PR]
    obtain ⟨hT, hR, hP⟩ := hstep
    obtain ⟨iT, iR, iP⟩ := ih (applyOp doc op) hT
    refine ⟨by simpa [applyOps] using iT, ?_, ?_⟩
    · rw [show applyOps doc (op :: rest) = applyOps (applyOp doc op) rest from rfl, iR, hR]
      cases op <;> (simp [countCAOps]; try omega)
    · rw [show applyOps doc (op :: rest) = applyOps (applyOp doc op) rest from rfl, iP, hP]
      cases op <;> (simp [countPROps]; try omega)

/-! ## Lemmas about the scheduling phase -/

theorem discovered_eq_map_schemas (ig : IgnoreSets) (h db : String) (schemas : List String) :
    (scheduleSchemasOfDb ig h db schemas).discovered =
      (scheduleSchemasOfDb ig h db schemas).branches.map branchIdentity := by
  induction schemas with
  | nil => simp [scheduleSchemasOfDb]
  | cons sch rest ih =>
    unfold scheduleSchemasOfDb
    split
    · simpa using ih
    · simpa [branchIdentity] using ih

theorem discovered_eq_map_items (ig : IgnoreSets) (items : List DbItem) :
    (scheduleDbItems ig items).discovered =
      (scheduleDbItems ig items).branches.map branchIdentity := by
  induction items with
  | nil => simp [scheduleDbItems]
  | cons item rest ih =>
    unfold scheduleDbItems
    split
    · simpa using ih
    · simp [scat, discovered_eq_map_schemas, ih]

theorem discovered_eq_map_hosts (ig : IgnoreSets) (dbsForHost : String → List DbItem)
    (hosts : List String) :
    (scheduleDbHosts ig dbsForHost hosts).discovered =
      (scheduleDbHosts ig dbsForHost hosts).branches.map branchIdentity := by
  induction hosts with
  | nil => simp [scheduleDbHosts]
  | cons h rest ih =>
    unfold scheduleDbHosts
    split
    · simpa using ih
    · simp [scat, discovered_eq_map_items, ih]

theorem branches_not_ignored_schemas (ig : IgnoreSets) (h db : String)
    (schemas : List String) (b : SchemaBranch)
    (hb : b ∈ (scheduleSchemasOfDb ig h db schemas).branches) :
    ig.database_schema.contains (branchIdentity b) = false := by
  induction schemas with
  | nil => simp [scheduleSchemasOfDb] at hb
  | cons sch rest ih =>
    unfold scheduleSchemasOfDb at hb
    by_cases hc : ig.database_schema.contains (schemaIdentity h db sch) = true
    · rw [if_pos hc] at hb
      exact ih hb
    · rw [if_neg hc] at hb
      simp at hb
      cases hb with
      | inl hb =>
        subst hb
        simpa [branchIdentity] using Bool.not_eq_true _ |>.mp hc
      | inr hb => exact ih hb

theorem branches_not_ignored_items (ig : IgnoreSets) (items : List DbItem) (b : SchemaBranch)
    (hb : b ∈ (scheduleDbItems ig items).branches) :
    ig.database_schema.contains (branchIdentity b) = false := by
  induction items with
  | nil => simp [scheduleDbItems] at hb
  | cons item rest ih =>
    unfold scheduleDbItems at hb
    split at hb
    · exact ih hb
    · simp [scat] at hb
      cases hb with
      | inl hb => exact branches_not_ignored_schemas ig item.hostName item.name item.schemas b hb
      | inr hb => exact ih hb

theorem branches_not_ignored_hosts (ig : IgnoreSets) (dbsForHost : String → List DbItem)
    (hosts : List String) (b : SchemaBranch)
    (hb : b ∈ (scheduleDbHosts ig dbsForHost hosts).branches) :
    ig.database_schema.contains (branchIdentity b) = false := by
  induction hosts with
  | nil => simp [scheduleDbHosts] at hb
  | cons h rest ih =>
    unfold scheduleDbHosts at hb
    split at hb
    · exact ih hb
    · simp [scat] at hb
      cases hb with
      | inl hb => exact branches_not_ignored_items ig (dbsForHost h) b hb
      | inr hb => exact ih hb

theorem warn_mem_schemas (ig : IgnoreSets) (h db : String) (schemas : List String)
    (sch : String) (hmem : sch ∈ schemas)
    (hig : ig.database_schema.contains (schemaIdentity h db sch) = true) :
    warnIgnore (schemaIdentity h db sch) ∈ (scheduleSchemasOfDb ig h db schemas).warnings := by
  induction schemas with
  | nil => simp at hmem
  | cons s rest ih =>
    simp at hmem
    unfold scheduleSchemasOfDb
    cases hmem with
    | inl hmem =>
      subst hmem
      rw [if_pos hig]
      simp
    | inr hmem =>
      split
      · simp
        exact Or.inr (ih hmem)
      · simpa using ih hmem

theorem warnings_lift_items (ig : IgnoreSets) (items : List DbItem) (item : DbItem)
    (hmem : item ∈ items)
    (hnotdb : ig.database.contains (item.hostName ++ "::" ++ item.name) = false)
    (w : String)
    (hw : w ∈ (scheduleSchemasOfDb ig item.hostName item.name item.schemas).warnings) :
    w ∈ (scheduleDbItems ig items).warnings := by
  induction items with
  | nil => simp at hmem
  | cons i rest ih =>
    simp at hmem
    unfold scheduleDbItems
    cases hmem with
    | inl hmem =>
      subst hmem
      rw [if_neg (by simpa using hnotdb)]
      simp [scat]
      exact Or.inl hw
    | inr hmem =>
      split
      · simp
        exact Or.inr (ih hmem)
      · simp [scat]
        exact Or.inr (ih hmem)

theorem warnings_lift_hosts (ig : IgnoreSets) (dbsForHost : String → List DbItem)
    (hosts : List String) (h : String) (hmem : h ∈ hosts)
    (hnotigh : ig.host.contains h = false)
    (w : String) (hw : w ∈ (scheduleDbItems ig (dbsForHost h)).warnings) :
    w ∈ (scheduleDbHosts ig dbsForHost hosts).warnings := by
  induction hosts with
  | nil => simp at hmem
  | cons h0 rest ih =>
    simp at hmem
    unfold scheduleDbHosts
    cases hmem with
    | inl hmem =>
      subst hmem
      rw [if_neg (by simpa using hnotigh)]
      simp [scat]
      exact Or.inl hw
    | inr hmem =>
      split
      · simp
        exact Or.inr (ih hmem)
      · simp [scat]
        exact Or.inr (ih hmem)

/-! ## Skip lemmas for unrecognised source strings -/

theorem caBuildTargets_skip (s : String) (h1 : jsHasChar s ':' = false)
    (h2 : jsHasChar s '.' = false) (doc : XNode) (xs ys : List String) :
    caBuildTargets doc (xs ++ s :: ys) = caBuildTargets doc (xs ++ ys) := by
  induction xs generalizing doc with
  | nil => simp [caBuildTargets, caStep, h1, h2]
  | cons x rest ih =>
    rw [List.cons_append, List.cons_append]
    exact ih (caStep doc x)

theorem prBuildTargets_skip (s : String) (h1 : jsHasChar s ':' = false)
    (h2 : jsHasChar s '.' = false) (doc : XNode) (xs ys : List String) :
    prBuildTargets doc (xs ++ s :: ys) = prBuildTargets doc (xs ++ ys) := by
  induction xs generalizing doc with
  | nil =>
    have hstep : prStep doc s = .ok doc := by simp [prStep, h1, h2]
    simp [prBuildTargets, hstep]
  | cons x rest ih =>
    rw [List.cons_append, List.cons_append]
    unfold prBuildTargets
    cases hx : prStep doc x with
    | ok d => simpa using ih d
    | error e => simp

/-! ## The claims -/

/-- C1: throughout any run of `createOrUpdateAnalysisProject` the shared
traversal state satisfies `discovered.length >= added.length`: every surviving
schema or file branch pushes its `discovered` entry at the moment its
asynchronous request is scheduled, pushes onto `added` only when its response
is processed, and the completion action (serialize the Project document and
issue the create-or-update request) fires exactly when the two lengths become
equal. -/
theorem c1_traversal_gate (s s' : TravState) (h1 : TravReachable s) (h2 : TravStep s s') :
    s.added.length ≤ s.discovered.length ∧
      (s.fired < s'.fired ↔
        (s'.added.length = s'.discovered.length ∧
          s'.added.length = s.added.length + 1)) := by
  constructor
  · have := trav_invariant h1
    omega
  · cases h2 with
    | schedule s ident => simp
    | completeAdd d a p f entry =>
      dsimp only
      simp only [List.length_append, List.length_cons, List.length_nil, and_true]
      split <;> omega
    | completeSkip d a p f => simp

/-- Witness for C1 at a concrete reachable state: one scheduled branch whose
completion makes the lengths equal and fires the gate once. -/
theorem c1_traversal_gate_witness :
    (TravState.mk ["HOST1::DB1::SCH1"] [] 1 0).added.length ≤
        (TravState.mk ["HOST1::DB1::SCH1"] [] 1 0).discovered.length ∧
      ((TravState.mk ["HOST1::DB1::SCH1"] [] 1 0).fired <
          (TravState.mk ["HOST1::DB1::SCH1"] ["DB1::SCH1"] 0 1).fired ↔
        ((TravState.mk ["HOST1::DB1::SCH1"] ["DB1::SCH1"] 0 1).added.length =
            (TravState.mk ["HOST1::DB1::SCH1"] ["DB1::SCH1"] 0 1).discovered.length ∧
          (TravState.mk ["HOST1::DB1::SCH1"] ["DB1::SCH1"] 0 1).added.length =
            (TravState.mk ["HOST1::DB1::SCH1"] [] 1 0).added.length + 1)) :=
  c1_traversal_gate _ _
    (TravReachable.step TravReachable.init (TravStep.schedule ⟨[], [], 0, 0⟩ "HOST1::DB1::SCH1"))
    (TravStep.completeAdd ["HOST1::DB1::SCH1"] [] 0 0 "DB1::SCH1")

/-- C2 (counterexample): in the scenario where "Automated Profiling" is
absent from the project list and discovery finds host HOST1 with database DB1,
schema SCH1 and tables T1 (columns A, B) and T2 (column C) under an empty
ignore list, the run issues exactly one create request, its document holds two
`Table` elements, but no `DataSource` element of the document contains two
`Table` elements: each table sits under its own `DataSource/Schema` chain, so
the claimed single shared parent does not exist. -/
theorem c2_counterexample :
    scnSubmitted.map Prod.fst = ["/ibm/iis/ia/api/create"] ∧
    scnSubmitted.map (fun pr => countTag "Table" pr.snd) = [2] ∧
    scnSubmitted.map (fun pr => someDataSourceHoldsTwoTables pr.snd) = [false] :=
  ⟨rfl, rfl, rfl⟩

/-- C2 (amended): the scenario run issues exactly one request, to the create
endpoint (not update), whose Project document contains the two `Table`
entries as two sibling `DataSource name="DB1"` elements each holding its own
`Schema name="SCH1"` chain under the single `DataSources` container. -/
theorem c2_amended : scnSubmitted = [("/ibm/iis/ia/api/create", scnExpectedDoc)] := rfl

/-- C3: whenever the ignore set lists `HOST1::DB1::SCH1` under type
`database_schema`, the traversal does not schedule a table request for that
schema, logs the warning line for it, and pushes no entry for it onto the
discovered list; the discovered list is exactly the identity list of the
surviving branches, so the completion-gate counts reflect only surviving
branches. -/
theorem c3_ignored_schema (ig : IgnoreSets) (hosts : List String)
    (dbsForHost : String → List DbItem)
    (hig : ig.database_schema.contains "HOST1::DB1::SCH1" = true)
    (item : DbItem) (hhost : "HOST1" ∈ hosts)
    (hnoth : ig.host.contains "HOST1" = false)
    (hitem : item ∈ dbsForHost "HOST1")
    (hitemHost : item.hostName = "HOST1") (hitemName : item.name = "DB1")
    (hsch : "SCH1" ∈ item.schemas)
    (hnotdb : ig.database.contains "HOST1::DB1" = false) :
    "HOST1::DB1::SCH1" ∉ (scheduleDbHosts ig dbsForHost hosts).discovered ∧
    SchemaBranch.mk "HOST1" "DB1" "SCH1" ∉ (scheduleDbHosts ig dbsForHost hosts).branches ∧
    warnIgnore "HOST1::DB1::SCH1" ∈ (scheduleDbHosts ig dbsForHost hosts).warnings ∧
    (scheduleDbHosts ig dbsForHost hosts).discovered =
      (scheduleDbHosts ig dbsForHost hosts).branches.map branchIdentity := by
  refine ⟨?_, ?_, ?_, discovered_eq_map_hosts ig dbsForHost hosts⟩
  · intro hmem
    rw [discovered_eq_map_hosts] at hmem
    obtain ⟨b, hb, hbid⟩ := List.mem_map.mp hmem
    have hforb := branches_not_ignored_hosts ig dbsForHost hosts b hb
    rw [hbid, hig] at hforb
    simp at hforb
  · intro hmem
    have hforb := branches_not_ignored_hosts ig dbsForHost hosts _ hmem
    have hbid : branchIdentity (SchemaBranch.mk "HOST1" "DB1" "SCH1") = "HOST1::DB1::SCH1" := rfl
    rw [hbid, hig] at hforb
    simp at hforb
  · have hid : schemaIdentity item.hostName item.name "SCH1" = "HOST1::DB1::SCH1" := by
      rw [hitemHost, hitemName]
      rfl
    have hw := warn_mem_schemas ig item.hostName item.name item.schemas "SCH1" hsch
      (by rw [hid]; exact hig)
    rw [hid] at hw
    have hw2 := warnings_lift_items ig (dbsForHost "HOST1") item hitem
      (by rw [hitemHost, hitemName]; exact hnotdb) _ hw
    exact warnings_lift_hosts ig dbsForHost hosts "HOST1" hhost hnoth _ hw2

/-- Witness for C3 at concrete data: HOST1 carries DB1 with schemas SCH1 and
SCH2, and SCH1 is on the ignore list. -/
theorem c3_ignored_schema_witness :
    "HOST1::DB1::SCH1" ∉
        (scheduleDbHosts ⟨[], [], ["HOST1::DB1::SCH1"], [], [], []⟩
          (fun _ => [⟨"DB1", "HOST1", ["SCH1", "SCH2"]⟩]) ["HOST1"]).discovered ∧
    SchemaBranch.mk "HOST1" "DB1" "SCH1" ∉
        (scheduleDbHosts ⟨[], [], ["HOST1::DB1::SCH1"], [], [], []⟩
          (fun _ => [⟨"DB1", "HOST1", ["SCH1", "SCH2"]⟩]) ["HOST1"]).branches ∧
    warnIgnore "HOST1::DB1::SCH1" ∈
        (scheduleDbHosts ⟨[], [], ["HOST1::DB1::SCH1"], [], [], []⟩
          (fun _ => [⟨"DB1", "HOST1", ["SCH1", "SCH2"]⟩]) ["HOST1"]).warnings ∧
    (scheduleDbHosts ⟨[], [], ["HOST1::DB1::SCH1"], [], [], []⟩
          (fun _ => [⟨"DB1", "HOST1", ["SCH1", "SCH2"]⟩]) ["HOST1"]).discovered =
      ((scheduleDbHosts ⟨[], [], ["HOST1::DB1::SCH1"], [], [], []⟩
          (fun _ => [⟨"DB1", "HOST1", ["SCH1", "SCH2"]⟩]) ["HOST1"]).branches).map
        branchIdentity :=
  c3_ignored_schema ⟨[], [], ["HOST1::DB1::SCH1"], [], [], []⟩ ["HOST1"]
    (fun _ => [⟨"DB1", "HOST1", ["SCH1", "SCH2"]⟩]) (by decide)
    ⟨"DB1", "HOST1", ["SCH1", "SCH2"]⟩ (by decide) (by decide)
    (List.mem_singleton.mpr rfl) rfl rfl (by decide) (by decide)

/-- C4 (code evaluated at the failing input): before any `setAuth`/`setServer`
call the three connection properties read as `undefined`, and the guard
`this.auth == "" || this.host == "" || this.port == ""` is false because
JS loose equality does not equate `undefined` with the empty string — so
`makeRequest` does not throw and proceeds to issue the HTTPS request,
contradicting its own `@throws` documentation for incomplete connectivity
details. -/
theorem c4_makeRequest_unset_does_not_throw : makeRequestThrows connInit = false := rfl

/-- C5 (counterexample): constructing `ColumnAnalysis` twice against the same
Project document yields two `RunColumnAnalysis` elements (under the single
shared `Tasks` container), so "at most one task element of each kind per
document" fails for this legal operation sequence. -/
theorem c5_counterexample :
    countTag "RunColumnAnalysis"
        (applyOps (Project.new "p")
          [ProjOp.columnAnalysis none none none none none,
           ProjOp.columnAnalysis none none none none none]) = 2 ∧
    countTag "Tasks"
        (applyOps (Project.new "p")
          [ProjOp.columnAnalysis none none none none none,
           ProjOp.columnAnalysis none none none none none]) = 1 :=
  ⟨rfl, rfl⟩

/-- C5 (amended): for every operation sequence on one Project document the
document holds at most one `Tasks` container (each task constructor locates it
by tag lookup and creates it only when absent), and the number of
`RunColumnAnalysis` (resp. `PublishResults`) elements equals the number of
`ColumnAnalysis` (resp. `PublishResults`) constructions in the sequence — so
at most one task element of each kind exists exactly when each constructor is
invoked at most once. -/
theorem c5_amended (n : String) (ops : List ProjOp) :
    countTag "Tasks" (applyOps (Project.new n) ops) ≤ 1 ∧
    countTag "RunColumnAnalysis" (applyOps (Project.new n) ops) = countCAOps ops ∧
    countTag "PublishResults" (applyOps (Project.new n) ops) = countPROps ops := by
  have h0 : countTag "Tasks" (Project.new n) = 0 := rfl
  have hR : countTag "RunColumnAnalysis" (Project.new n) = 0 := rfl
  have hP : countTag "PublishResults" (Project.new n) = 0 := rfl
  have h := applyOps_counts ops (Project.new n) (by rw [h0]; omega)
  rw [hR, hP] at h
  simpa using h

/-- C6: when the `analysisStatus` response has HTTP status 200 and holds more
than one `TaskExecution` element, the string "More than one result found" is
passed to the continuation as the error value together with the assembled
status record (it is not thrown: the outcome is `ok`, not `error`); with
exactly one element the continuation receives a null error and the element's
four attribute values copied verbatim. -/
theorem c6_getTaskStatus (execs : List TaskExec) :
    (1 < execs.length →
      getTaskStatusOutcome 200 execs =
        .ok (some "More than one result found", statFromExecs execs)) ∧
    (∀ e : TaskExec, execs = [e] →
      getTaskStatusOutcome 200 execs =
        .ok (none, ⟨some e.executionId, some e.executionTime, some e.progress, some e.status⟩)) := by
  constructor
  · intro h
    simp [getTaskStatusOutcome, h]
  · intro e he
    subst he
    simp [getTaskStatusOutcome, statFromExecs]

/-- Witness for C6: one execution running at progress 42, and a two-element
response. -/
theorem c6_getTaskStatus_witness :
    getTaskStatusOutcome 200 [⟨"execA", "12", "42", "running"⟩] =
        .ok (none, ⟨some "execA", some "12", some "42", some "running"⟩) ∧
    getTaskStatusOutcome 200
        [⟨"execA", "12", "42", "running"⟩, ⟨"execB", "13", "7", "running"⟩] =
      .ok (some "More than one result found",
        statFromExecs [⟨"execA", "12", "42", "running"⟩, ⟨"execB", "13", "7", "running"⟩]) :=
  ⟨(c6_getTaskStatus _).2 _ rfl, (c6_getTaskStatus _).1 (by decide)⟩

/-- C7: `_createOrUpdateIgnoreList` searches for the ignore label by name and
creates it only when the search returned no item with an `_id`; starting from
a catalog without the label, the first call creates it and a second call finds
it, performs no create (the catalog is unchanged), and yields the same label
RID, leaving exactly one such label. -/
theorem c7_ignoreList_idempotent (catalog : List LabelItem) (r1 r2 : String)
    (habsent : ∀ it ∈ catalog, it.name ≠ ignoreLabelName) (hfresh : r1 ≠ "") :
    (createOrUpdateIgnoreList (createOrUpdateIgnoreList catalog r1).1 r2).1 =
        (createOrUpdateIgnoreList catalog r1).1 ∧
    (createOrUpdateIgnoreList (createOrUpdateIgnoreList catalog r1).1 r2).2 =
        (createOrUpdateIgnoreList catalog r1).2 ∧
    ((createOrUpdateIgnoreList catalog r1).1.filter
        (fun it => it.name == ignoreLabelName)).length = 1 := by
  have hfilter : catalog.filter (fun it => it.name == ignoreLabelName) = [] := by
    rw [List.filter_eq_nil_iff]
    intro it hit
    simpa using habsent it hit
  have hsearch : searchLabelsByName catalog ignoreLabelName = [] := hfilter
  have hfirst : createOrUpdateIgnoreList catalog r1 =
      (catalog ++ [⟨ignoreLabelName, some r1⟩], r1) := by
    simp [createOrUpdateIgnoreList, hsearch, lastFoundRid]
  rw [hfirst]
  have hsearch2 : searchLabelsByName (catalog ++ [⟨ignoreLabelName, some r1⟩]) ignoreLabelName =
      [⟨ignoreLabelName, some r1⟩] := by
    simp only [searchLabelsByName, List.filter_append, hfilter]
    simp
  have hsecond : createOrUpdateIgnoreList (catalog ++ [⟨ignoreLabelName, some r1⟩]) r2 =
      (catalog ++ [⟨ignoreLabelName, some r1⟩], r1) := by
    simp [createOrUpdateIgnoreList, hsearch2, lastFoundRid, hfresh]
  rw [hsecond]
  refine ⟨rfl, rfl, ?_⟩
  simp only [List.filter_append, hfilter]
  simp

/-- Witness for C7 at a concrete catalog holding one unrelated label. -/
theorem c7_ignoreList_idempotent_witness :
    (createOrUpdateIgnoreList
          (createOrUpdateIgnoreList [⟨"Other Label", some "x"⟩] "rid1").1 "rid2").1 =
        (createOrUpdateIgnoreList [⟨"Other Label", some "x"⟩] "rid1").1 ∧
    (createOrUpdateIgnoreList
          (createOrUpdateIgnoreList [⟨"Other Label", some "x"⟩] "rid1").1 "rid2").2 =
        (createOrUpdateIgnoreList [⟨"Other Label", some "x"⟩] "rid1").2 ∧
    ((createOrUpdateIgnoreList [⟨"Other Label", some "x"⟩] "rid1").1.filter
        (fun it => it.name == ignoreLabelName)).length = 1 :=
  c7_ignoreList_idempotent [⟨"Other Label", some "x"⟩] "rid1" "rid2" (by decide) (by decide)

/-- C8: a `ColumnAnalysis` constructed with undefined optional arguments
creates the `RunColumnAnalysis` element with the attribute defaults
`analyzeColumnProperties=true`, `captureFDResultsType=CAPTURE_ALL`,
`minFDCaptureSize=5000`, `maxFDCaptureSize=10000`,
`analyzeDataClasses=false`; every supplied argument is used verbatim in place
of its default. -/
theorem c8_columnAnalysis_defaults (acp : Option Bool) (crt : Option String)
    (minC maxC : Option Int) (adc : Option Bool) :
    mkRunColumnAnalysisElem none none none none none =
      .elem "RunColumnAnalysis"
        [("analyzeColumnProperties", "true"), ("captureFDResultsType", "CAPTURE_ALL"),
         ("minFDCaptureSize", "5000"), ("maxFDCaptureSize", "10000"),
         ("analyzeDataClasses", "false")] [] ∧
    mkRunColumnAnalysisElem acp crt minC maxC adc =
      .elem "RunColumnAnalysis"
        [("analyzeColumnProperties", jsBoolStr (acp.getD true)),
         ("captureFDResultsType", crt.getD "CAPTURE_ALL"),
         ("minFDCaptureSize", jsIntStr (minC.getD 5000)),
         ("maxFDCaptureSize", jsIntStr (maxC.getD 10000)),
         ("analyzeDataClasses", jsBoolStr (adc.getD false))] [] := by
  constructor
  · rfl
  · cases acp <;> cases crt <;> cases minC <;> cases maxC <;> cases adc <;> rfl

/-- C9: in `runColumnAnalysisForSources` a source string containing a colon is
split on colons and submitted as a file-analysis target (a colon-joined column
name built by `addFileField`), while a string without a colon but with a dot
is split on dots and submitted as a table-analysis target (a dot-joined column
name built by `addColumn`); the colon check takes precedence, as the first
implication carries no condition on dots. -/
theorem c9_delimiter_sniffing (p s : String) :
    (jsHasChar s ':' = true →
      rcaColumnNames (runColumnAnalysisForSourcesDoc p [s]) =
        [jsSplitTok s ':' 0 ++ ":" ++ jsSplitTok s ':' 1 ++ ":" ++
          jsSplitTok s ':' 2 ++ ":" ++ "*"]) ∧
    (jsHasChar s ':' = false → jsHasChar s '.' = true →
      rcaColumnNames (runColumnAnalysisForSourcesDoc p [s]) =
        [jsSplitTok s '.' 0 ++ "." ++ jsSplitTok s '.' 1 ++ "." ++
          jsSplitTok s '.' 2 ++ "." ++ "*"]) := by
  constructor
  · intro hc
    simp [runColumnAnalysisForSourcesDoc, caBuildTargets, caStep, hc,
      ColumnAnalysis.init, ColumnAnalysis.addFileField, Project.new,
      mkRunColumnAnalysisElem, countTag, countTagL, appendToRoot,
      appendToFirst, appendToFirstL, rcaColumnNames, findFirstTag, findFirstTagL,
      attrValue, getValueOrDefault, jsBoolStr, jsIntStr]
  · intro hc hd
    simp [runColumnAnalysisForSourcesDoc, caBuildTargets, caStep, hc, hd,
      ColumnAnalysis.init, ColumnAnalysis.addColumn, Project.new,
      mkRunColumnAnalysisElem, countTag, countTagL, appendToRoot,
      appendToFirst, appendToFirstL, rcaColumnNames, findFirstTag, findFirstTagL,
      attrValue, getValueOrDefault, jsBoolStr, jsIntStr]

/-- Witness for C9 at the two scenario strings: the colon-delimited string
becomes a file-analysis target and the dotted string a table-analysis
target. -/
theorem c9_delimiter_sniffing_witness :
    (jsHasChar "HOST1:/data:file1:*" ':' = true ∧
      rcaColumnNames (runColumnAnalysisForSourcesDoc "proj" ["HOST1:/data:file1:*"]) =
        ["HOST1:/data:file1:*"]) ∧
    (jsHasChar "DB1.SCH1.T1.*" ':' = false ∧ jsHasChar "DB1.SCH1.T1.*" '.' = true ∧
      rcaColumnNames (runColumnAnalysisForSourcesDoc "proj" ["DB1.SCH1.T1.*"]) =
        ["DB1.SCH1.T1.*"]) :=
  ⟨⟨by decide, by
      have h := (c9_delimiter_sniffing "proj" "HOST1:/data:file1:*").1 (by decide)
      simpa using h⟩,
    ⟨by decide, by decide, by
      have h := (c9_delimiter_sniffing "proj" "DB1.SCH1.T1.*").2 (by decide) (by decide)
      simpa using h⟩⟩

/-- C10: a source string containing neither a colon nor a dot adds no target
element in `runColumnAnalysisForSources` or `publishResultsForSources`: the
loop body falls through without touching the document (and without any error
or log call), so the submitted XML equals the one produced from the same list
with that string removed. -/
theorem c10_unrecognised_source_skipped (p s : String) (xs ys : List String)
    (h1 : jsHasChar s ':' = false) (h2 : jsHasChar s '.' = false) :
    runColumnAnalysisForSourcesDoc p (xs ++ s :: ys) =
        runColumnAnalysisForSourcesDoc p (xs ++ ys) ∧
    publishResultsForSourcesDoc p (xs ++ s :: ys) =
        publishResultsForSourcesDoc p (xs ++ ys) :=
  ⟨caBuildTargets_skip s h1 h2 _ xs ys, prBuildTargets_skip s h1 h2 _ xs ys⟩

/-- Witness for C10: dropping the delimiter-free string "nodelims" from a
source list leaves both submitted documents unchanged. -/
theorem c10_unrecognised_source_skipped_witness :
    (jsHasChar "nodelims" ':' = false ∧ jsHasChar "nodelims" '.' = false) ∧
    runColumnAnalysisForSourcesDoc "proj" (["DB1.SCH1.T1.*"] ++ "nodelims" :: []) =
        runColumnAnalysisForSourcesDoc "proj" (["DB1.SCH1.T1.*"] ++ []) ∧
    publishResultsForSourcesDoc "proj" (["DB1.SCH1.T1.*"] ++ "nodelims" :: []) =
        publishResultsForSourcesDoc "proj" (["DB1.SCH1.T1.*"] ++ []) :=
  ⟨⟨by decide, by decide⟩,
    (c10_unrecognised_source_skipped "proj" "nodelims" ["DB1.SCH1.T1.*"] []
        (by decide) (by decide)).1,
    (c10_unrecognised_source_skipped "proj" "nodelims" ["DB1.SCH1.T1.*"] []
        (by decide) (by decide)).2⟩
